import Mathlib

/-!
# Verification of the mini-framework virtual-DOM reconciliation engine

Shallow embedding of `src/framework/dom.js` and `src/framework/events.js`
(AniMar0/mini-framework). JavaScript values that flow through the engine are
modelled by inductive types; JS object/function reference identity is modelled
by a numeric id (two values are `===` iff they are the same Lean value);
JS number values appearing in tree descriptions are modelled as integers.

Design notes on the embedding:
* children lists of virtual nodes, patch lists and display-node lists are
  mutually-inductive list types (`VNodeList`, `PatchList`, `DNodeList`) so that
  all recursive functions are structurally recursive and reduce by `rfl`;
* `diffChildren` in the source iterates `i` from `0` to
  `max(old.length, new.length)` reading `children[i]` (yielding `undefined`
  out of range); here it is written as a structurally recursive walk over both
  lists, which produces the same list of patches (this is proved as part of
  the index-alignment theorem below);
* `null` patches (the source's `NONE`) are modelled by the mutually-inductive
  `OptPatch` type.
-/

/-- A JavaScript value usable as an attribute value: primitive, function, or
(style) object.  Functions and plain objects are compared by reference in JS
(`!==`); we model references by a numeric id. -/
inductive AttrVal where
  | str (s : String)
  | num (n : Int)
  | bool (b : Bool)
  | func (id : Nat)
  | obj (id : Nat)
  | undefined
deriving DecidableEq, Repr

/-- `typeof` for attribute values. -/
def typeOfAttr : AttrVal → String
  | .str _ => "string"
  | .num _ => "number"
  | .bool _ => "boolean"
  | .func _ => "function"
  | .obj _ => "object"
  | .undefined => "undefined"

/-- JS `String(value)` coercion for the attribute values we model
(used by `setAttribute`). -/
def jsToString : AttrVal → String
  | .str s => s
  | .num n => toString n
  | .bool true => "true"
  | .bool false => "false"
  | .func _ => "function"
  | .obj _ => "[object Object]"
  | .undefined => "undefined"

/-- One attribute-change record of an UPDATE patch: the source pushes
`{ key, value }`, with `value = undefined` acting as the removal sentinel. -/
structure AttrPatch where
  key : String
  value : AttrVal
deriving DecidableEq, Repr

mutual
/-- A tree-description node (the source's virtual node).  Variants follow the
spec's data model: Absent (`null`/`undefined`/`false`), Text (string or
number), and Element (tag, attribute map, children). -/
inductive VNode where
  | vNull
  | vUndefined
  | vFalse
  | vStr (s : String)
  | vNum (n : Int)
  | vElem (tag : String) (attrs : List (String × AttrVal)) (children : VNodeList)

inductive VNodeList where
  | nil
  | cons (hd : VNode) (tl : VNodeList)
end

/-- JS truthiness test used by the source (`!oldNode`, `!newNode`,
`!oldVNode`): `null`, `undefined`, `false`, `0` and `""` are falsy. -/
def falsy : VNode → Bool
  | .vNull => true
  | .vUndefined => true
  | .vFalse => true
  | .vStr s => s == ""
  | .vNum n => n == 0
  | .vElem _ _ _ => false

/-- JS `typeof` on tree-description nodes. -/
def typeOf : VNode → String
  | .vNull => "object"
  | .vUndefined => "undefined"
  | .vFalse => "boolean"
  | .vStr _ => "string"
  | .vNum _ => "number"
  | .vElem _ _ _ => "object"

/-- `typeof n === 'string' || typeof n === 'number'` (the text-node test). -/
def isTextNode : VNode → Bool
  | .vStr _ => true
  | .vNum _ => true
  | _ => false

/-- Strict equality (`===`) restricted to scalar text nodes; the source only
compares nodes with `!==` after establishing both are strings or numbers. -/
def sameScalar : VNode → VNode → Bool
  | .vStr a, .vStr b => a == b
  | .vNum a, .vNum b => a == b
  | _, _ => false

/-- List length for `VNodeList`. -/
def VNodeList.length : VNodeList → Nat
  | .nil => 0
  | .cons _ tl => tl.length + 1

/-- Indexing with a default, modelling JS `children[i]` which yields
`undefined` out of range. -/
def VNodeList.getD : VNodeList → Nat → VNode → VNode
  | .nil, _, d => d
  | .cons hd _, 0, _ => hd
  | .cons _ tl, i + 1, d => tl.getD i d

/-- First-match association-list lookup, modelling JS property read
`obj[key]` on plain objects (which cannot have duplicate keys). -/
def lookupA {κ α : Type} [DecidableEq κ] : List (κ × α) → κ → Option α
  | [], _ => none
  | kv :: rest, k => if kv.1 = k then some kv.2 else lookupA rest k

/-- JS `oldAttrs[key]`: a missing key reads as `undefined`. -/
def lookupAttrVal (attrs : List (String × AttrVal)) (k : String) : AttrVal :=
  (lookupA attrs k).getD .undefined

/-- JS `key in attrs`. -/
def hasKey {α : Type} (attrs : List (String × α)) (k : String) : Bool :=
  (lookupA attrs k).isSome

/-- `diffAttrs` (dom.js:111-129): first the new-or-changed entries of
`newAttrs` in iteration order, then a removal record for every key of
`oldAttrs` not present in `newAttrs`. -/
def diffAttrs (oldAttrs newAttrs : List (String × AttrVal)) : List AttrPatch :=
  ((newAttrs.filter fun kv => decide (lookupAttrVal oldAttrs kv.1 ≠ kv.2)).map
      fun kv => { key := kv.1, value := kv.2 })
    ++ ((oldAttrs.filter fun kv => !hasKey newAttrs kv.1).map
      fun kv => { key := kv.1, value := AttrVal.undefined })

mutual
/-- Patches (dom.js): CREATE / REMOVE / REPLACE carry structure exactly as the
source builds them; UPDATE carries the attribute records and the per-child
patch list.  `OptPatch.none` is the source's `null` patch (NONE). -/
inductive OptPatch where
  | none
  | some (p : Patch)

inductive Patch where
  | create (newNode : VNode)
  | remove
  | replace (newNode : VNode)
  | update (attrs : List AttrPatch) (children : PatchList)

inductive PatchList where
  | nil
  | cons (hd : OptPatch) (tl : PatchList)
end

/-- Length of a patch list. -/
def PatchList.length : PatchList → Nat
  | .nil => 0
  | .cons _ tl => tl.length + 1

/-- Indexing a patch list (default NONE, which the source's sparse array
semantics would also produce past the end). -/
def PatchList.getD : PatchList → Nat → OptPatch
  | .nil, _ => .none
  | .cons hd _, 0 => hd
  | .cons _ tl, i + 1 => tl.getD i

/-- When the old child list is exhausted, every remaining new child `n` is
diffed as `diff(undefined, n)`, which is always `CREATE(n)` because
`undefined` is falsy. -/
def createPatches : VNodeList → PatchList
  | .nil => .nil
  | .cons n ns => .cons (.some (.create n)) (createPatches ns)

mutual
/-- `diff` (dom.js:74-109).  The falsiness checks, the `typeof` comparison,
the text-node comparison and the tag comparison are exactly the source's
decision order. -/
def diff (oldNode newNode : VNode) : OptPatch :=
  if falsy oldNode then .some (.create newNode)
  else if falsy newNode then .some .remove
  else if typeOf oldNode ≠ typeOf newNode then .some (.replace newNode)
  else if isTextNode newNode then
    if sameScalar oldNode newNode then .none else .some (.replace newNode)
  else
    match oldNode, newNode with
    | .vElem t1 a1 c1, .vElem t2 a2 c2 =>
      if t1 ≠ t2 then .some (.replace (.vElem t2 a2 c2))
      else .some (.update (diffAttrs a1 a2) (diffChildren c1 c2))
    | _, _ => .none

/-- `diffChildren` (dom.js:131-140): index-aligned recursive diff for
`i < max(old.length, new.length)`, an out-of-range index reading as
`undefined`.  Written as a simultaneous walk over both lists; the
index-alignment theorem below recovers the source's `children[i]` view. -/
def diffChildren : VNodeList → VNodeList → PatchList
  | .nil, ns => createPatches ns
  | .cons o os, .nil => .cons (diff o .vUndefined) (diffChildren os .nil)
  | .cons o os, .cons n ns => .cons (diff o n) (diffChildren os ns)
end

/-! ## Event system (`src/framework/events.js`) -/

/-- Updating the first binding of a key in an association list, modelling
JS `obj[key] = value` / `Map.set` (keys are unique in real JS objects/maps,
so only the first occurrence matters). -/
def assocSet {κ α : Type} [DecidableEq κ] : List (κ × α) → κ → α → List (κ × α)
  | [], k, v => [(k, v)]
  | kv :: rest, k, v =>
    if kv.1 = k then (k, v) :: rest else kv :: assocSet rest k v

/-- The per-element record held in `eventRegistry` (events.js:6): a map from
event name to the array of bound handlers.  Handlers are modelled by ids. -/
abbrev EventMap : Type := List (String × List Nat)

/-- `bindEvent` (events.js:14-30): on the first handler for an event it
installs the single dispatching listener and an empty array, then pushes the
handler onto the array. -/
def bindEvent (events : EventMap) (event : String) (handler : Nat) : EventMap :=
  match lookupA events event with
  | Option.none => events ++ [(event, [handler])]
  | Option.some hs => assocSet events event (hs ++ [handler])

/-- A single event dispatch on the element: the installed listener runs
`events[event].forEach(fn => fn(e))` (events.js:25), so the handlers fire in
array (registration) order.  Returns the handler ids in invocation order. -/
def dispatch (events : EventMap) (event : String) : List Nat :=
  (lookupA events event).getD []

/-! ## Display tree (real DOM) model -/

mutual
/-- A display (real DOM) node: character data, or an element with the
mutable surfaces the engine touches — `className`, the `style` surface
(modelled as the list of style objects merged onto it), live properties
(`element[key] = value`), string attributes (`setAttribute`, which
stringifies), the event registry of `bindEvent`, and children. -/
inductive DNode where
  | text (s : String)
  | elem (tag : String) (className : String) (style : List AttrVal)
      (props : List (String × AttrVal)) (attrs : List (String × String))
      (events : List (String × List Nat)) (children : DNodeList)

inductive DNodeList where
  | nil
  | cons (hd : DNode) (tl : DNodeList)
end

/-- Append to a display child list. -/
def DNodeList.append : DNodeList → DNode → DNodeList
  | .nil, d => .cons d .nil
  | .cons hd tl, d => .cons hd (tl.append d)

/-- `parent.childNodes[index]` (may be absent). -/
def DNodeList.getAt : DNodeList → Nat → Option DNode
  | .nil, _ => none
  | .cons hd _, 0 => some hd
  | .cons _ tl, i + 1 => tl.getAt i

/-- `parent.replaceChild(new, childNodes[index])`. -/
def DNodeList.setAt : DNodeList → Nat → DNode → DNodeList
  | .nil, _, _ => .nil
  | .cons _ tl, 0, d => .cons d tl
  | .cons hd tl, i + 1, d => .cons hd (tl.setAt i d)

/-- `parent.removeChild(childNodes[index])`. -/
def DNodeList.removeAt : DNodeList → Nat → DNodeList
  | .nil, _ => .nil
  | .cons _ tl, 0 => tl
  | .cons hd tl, i + 1 => .cons hd (tl.removeAt i)

/-- Number of display children. -/
def DNodeList.length : DNodeList → Nat
  | .nil => 0
  | .cons _ tl => tl.length + 1

/-- `parent.childNodes[index]`; a text node has no children. -/
def childAt : DNode → Nat → Option DNode
  | .text _, _ => none
  | .elem _ _ _ _ _ _ children, i => children.getAt i

/-- Replace the whole child list (text nodes are unchanged; the engine never
uses a text node as a parent). -/
def withChildren : DNode → DNodeList → DNode
  | .text s, _ => .text s
  | .elem tag cn st pr at_ ev _, ch => .elem tag cn st pr at_ ev ch

/-- `parent.appendChild(d)`. -/
def appendChild : DNode → DNode → DNode
  | .text s, _ => .text s
  | .elem tag cn st pr at_ ev ch, d => .elem tag cn st pr at_ ev (ch.append d)

/-- Children of a display node (empty for text). -/
def childrenOf : DNode → DNodeList
  | .text _ => .nil
  | .elem _ _ _ _ _ _ ch => ch

/-- `setChildAt p i d` = `p.replaceChild(d, p.childNodes[i])`. -/
def setChildAt (p : DNode) (i : Nat) (d : DNode) : DNode :=
  withChildren p ((childrenOf p).setAt i d)

/-- `removeChildAt p i` = `p.removeChild(p.childNodes[i])`. -/
def removeChildAt (p : DNode) (i : Nat) : DNode :=
  withChildren p ((childrenOf p).removeAt i)

/-- `container.innerHTML = ''`. -/
def clearChildren (p : DNode) : DNode :=
  withChildren p .nil

/-- Handler id of a function-valued attribute (only read under the
`typeof value === 'function'` guard). -/
def funcIdOf : AttrVal → Nat
  | .func id => id
  | _ => 0

/-- `key.startsWith('on')`, written on the character list so that it
evaluates by kernel reduction. -/
def startsWithOn (key : String) : Bool :=
  match key.data with
  | 'o' :: 'n' :: _ => true
  | _ => false

/-- `key.slice(2).toLowerCase()`: event name of an `on…` attribute key
(written on the character list so that it evaluates by kernel reduction). -/
def eventNameOf (key : String) : String :=
  String.mk ((key.data.drop 2).map Char.toLower)

/-- One step of the attribute loop of `createDOMElement` (dom.js:38-54):
event binding, `className`/`class`, `style` objects, the live properties
`checked`/`disabled`/`selected` and `value`, else `setAttribute`. -/
def applyAttrCreate (el : DNode) (key : String) (v : AttrVal) : DNode :=
  match el with
  | .text s => .text s
  | .elem tag cn st pr at_ ev ch =>
    if startsWithOn key && (typeOfAttr v == "function") then
      .elem tag cn st pr at_ (bindEvent ev (eventNameOf key) (funcIdOf v)) ch
    else if key = "className" ∨ key = "class" then
      .elem tag (jsToString v) st pr at_ ev ch
    else if key = "style" ∧ typeOfAttr v = "object" then
      .elem tag cn (st ++ [v]) pr at_ ev ch
    else if key = "checked" ∨ key = "disabled" ∨ key = "selected" then
      .elem tag cn st (assocSet pr key v) at_ ev ch
    else if key = "value" then
      .elem tag cn st (assocSet pr key v) at_ ev ch
    else
      .elem tag cn st pr (assocSet at_ key (jsToString v)) ev ch

/-- One step of `patchAttrs` (dom.js:187-204).  Note the differences from
the create path: an `undefined` value means `removeAttribute`, and the
live-property branch tests `checked`/`disabled`/`value` only (no
`selected`). -/
def applyAttrPatch (el : DNode) (key : String) (v : AttrVal) : DNode :=
  match el with
  | .text s => .text s
  | .elem tag cn st pr at_ ev ch =>
    if startsWithOn key && (typeOfAttr v == "function") then
      .elem tag cn st pr at_ (bindEvent ev (eventNameOf key) (funcIdOf v)) ch
    else if v = .undefined then
      .elem tag cn st pr (at_.filter fun kv => kv.1 ≠ key) ev ch
    else if key = "className" ∨ key = "class" then
      .elem tag (jsToString v) st pr at_ ev ch
    else if key = "style" ∧ typeOfAttr v = "object" then
      .elem tag cn (st ++ [v]) pr at_ ev ch
    else if key = "checked" ∨ key = "disabled" ∨ key = "value" then
      .elem tag cn st (assocSet pr key v) at_ ev ch
    else
      .elem tag cn st pr (assocSet at_ key (jsToString v)) ev ch

/-- `patchAttrs` (dom.js:187-204): apply each attribute record in order. -/
def patchAttrs (el : DNode) (attrPatches : List AttrPatch) : DNode :=
  attrPatches.foldl (fun e r => applyAttrPatch e r.key r.value) el

mutual
/-- `createDOMElement` (dom.js:23-65): absent nodes materialize to nothing,
scalars to text nodes, elements to a fresh display element with the
attribute loop applied and each non-absent child appended. -/
def createDOMElement : VNode → Option DNode
  | .vNull => none
  | .vUndefined => none
  | .vFalse => none
  | .vStr s => some (.text s)
  | .vNum n => some (.text (toString n))
  | .vElem tag attrs children =>
    let base : DNode := .elem tag "" [] [] [] [] .nil
    let withAttrs := attrs.foldl (fun e kv => applyAttrCreate e kv.1 kv.2) base
    some (withChildren withAttrs (createChildrenDom children))

/-- The child loop of `createDOMElement` (dom.js:57-62): materialize each
child, appending only non-null results. -/
def createChildrenDom : VNodeList → DNodeList
  | .nil => .nil
  | .cons c cs =>
    match createDOMElement c with
    | Option.some e => .cons e (createChildrenDom cs)
    | Option.none => createChildrenDom cs
end

mutual
/-- `patch` (dom.js:146-185).  `parent.childNodes[index]` is read first;
CREATE appends, REMOVE detaches the child if present, REPLACE substitutes
(or appends when there is no existing child), UPDATE patches attributes and
children of the existing child — silently doing nothing when there is no
child at `index`. -/
def patch (parent : DNode) (patches : OptPatch) (index : Nat) : DNode :=
  match patches with
  | .none => parent
  | .some p =>
    match p with
    | .create newNode =>
      match createDOMElement newNode with
      | Option.some newElement => appendChild parent newElement
      | Option.none => parent
    | .remove =>
      match childAt parent index with
      | Option.some _ => removeChildAt parent index
      | Option.none => parent
    | .replace newNode =>
      match createDOMElement newNode, childAt parent index with
      | Option.some newElement, Option.some _ => setChildAt parent index newElement
      | Option.some newElement, Option.none => appendChild parent newElement
      | Option.none, _ => parent
    | .update attrPatches childPatches =>
      match childAt parent index with
      | Option.some element =>
        setChildAt parent index
          (patchChildrenAux (patchAttrs element attrPatches) childPatches 0)
      | Option.none => parent

/-- `patchChildren` (dom.js:206-210): apply the i-th child patch at index i,
left to right, mutating the same parent. -/
def patchChildrenAux (parent : DNode) (childPatches : PatchList) (i : Nat) : DNode :=
  match childPatches with
  | .nil => parent
  | .cons cp rest => patchChildrenAux (patch parent cp i) rest (i + 1)
end

/-! ## Mount coordinator (`mount`, dom.js:216-245) -/

/-- The document and the mount cache: containers are display nodes addressed
by identity (a numeric id), `cache` is the `virtualTreeCache` WeakMap
(dom.js:72) keyed by container identity. -/
structure MountState where
  containers : List (Nat × DNode)
  cache : List (Nat × VNode)

/-- Resolution of the mount target (dom.js:218-220): either the caller
passed no resolvable handle (`querySelector` returned `null` / the target
was null), or the target denotes a container of the document. -/
def resolveTarget (st : MountState) (target : Option Nat) : Option (Nat × DNode) :=
  match target with
  | Option.none => none
  | Option.some c =>
    match lookupA st.containers c with
    | Option.some d => some (c, d)
    | Option.none => none

/-- The first-render branch of `mount` (dom.js:230-236):
`container.innerHTML = ''`, then materialize and append if non-absent. -/
def firstRender (container : DNode) (vNode : VNode) : DNode :=
  let cleared := clearChildren container
  match createDOMElement vNode with
  | Option.some element => appendChild cleared element
  | Option.none => cleared

/-- `mount` (dom.js:216-245).  Returns the new state together with a flag
that is `true` iff the `console.error` path was taken (target not found:
report and skip, no mutation).  On success, either branch ends by caching
the new description for the container. -/
def mount (st : MountState) (target : Option Nat) (vNode : VNode) :
    MountState × Bool :=
  match resolveTarget st target with
  | Option.none => (st, true)
  | Option.some (c, container) =>
    let newContainer :=
      match lookupA st.cache c with
      | Option.some oldVNode =>
        if falsy oldVNode then firstRender container vNode
        else patch container (diff oldVNode vNode) 0
      | Option.none => firstRender container vNode
    ({ containers := assocSet st.containers c newContainer,
       cache := assocSet st.cache c vNode }, false)

/-! ## Tree builder (`createElement`, dom.js:8-14) -/

mutual
/-- The raw children argument of `createElement`: an arbitrarily nested
sequence of tree descriptions. -/
inductive ChildTree where
  | leaf (v : VNode)
  | arr (items : ChildForest)

inductive ChildForest where
  | nil
  | cons (hd : ChildTree) (tl : ChildForest)
end

/-- Forest concatenation. -/
def ChildForest.append : ChildForest → ChildForest → ChildForest
  | .nil, r => r
  | .cons hd tl, r => .cons hd (tl.append r)

/-- JS `Array.prototype.flat()` with its default depth of 1: splice the
items of each directly nested array into the result, leaving deeper
nesting untouched. -/
def flatOnce : ChildForest → ChildForest
  | .nil => .nil
  | .cons (.leaf v) tl => .cons (.leaf v) (flatOnce tl)
  | .cons (.arr items) tl => items.append (flatOnce tl)

/-- The value built by `createElement` (dom.js:8-14): the tag, a copy of the
attribute map, and `children.flat()`. -/
structure RawElement where
  tag : String
  attrs : List (String × AttrVal)
  children : ChildForest

/-- `createElement` (dom.js:8-14). -/
def createElement (tag : String) (attrs : List (String × AttrVal))
    (children : ChildForest) : RawElement :=
  { tag := tag, attrs := attrs, children := flatOnce children }

/-- Is every entry of the stored children sequence a single tree description
(no remaining nesting)? -/
def allLeaves : ChildForest → Bool
  | .nil => true
  | .cons (.leaf _) tl => allLeaves tl
  | .cons (.arr _) _ => false

/-- Nesting depth at most one below the top sequence: each entry is a leaf
or a sequence of leaves.  (`flat()` fully flattens exactly these inputs.) -/
def shallowForest : ChildForest → Bool
  | .nil => true
  | .cons (.leaf _) tl => shallowForest tl
  | .cons (.arr items) tl => allLeaves items && shallowForest tl

/-- Full recursive flattening of a nested children sequence into the ordered
sequence of tree descriptions it contains, left to right. -/
def flattenForest : ChildForest → List VNode
  | .nil => []
  | .cons (.leaf v) tl => v :: flattenForest tl
  | .cons (.arr items) tl => flattenForest items ++ flattenForest tl

/-- Re-embed a flat list of tree descriptions as a children sequence. -/
def leavesForest : List VNode → ChildForest
  | [] => .nil
  | v :: rest => .cons (.leaf v) (leavesForest rest)

/-! ## Well-formedness of tree descriptions -/

/-- Keys of an attribute map are pairwise distinct (always true of a real JS
object, which cannot hold a key twice). -/
def noDupKeys {α : Type} : List (String × α) → Bool
  | [] => true
  | kv :: rest => !(rest.any fun kv2 => kv2.1 == kv.1) && noDupKeys rest

mutual
/-- Well-formed element description: attribute keys are unique and every
child is a well-behaved child (`goodChild`).  Non-elements are trivially
well-formed. -/
def goodDesc : VNode → Bool
  | .vElem _ attrs children => noDupKeys attrs && goodChildren children
  | _ => true

def goodChildren : VNodeList → Bool
  | .nil => true
  | .cons hd tl => goodChild hd && goodChildren tl

/-- A child position is well-behaved if it does not hold a falsy scalar
(`""` or `0`) — those are treated as absent by the source's truthiness
tests — and any element in it is recursively well-formed.  Absent values
(`null`/`undefined`/`false`) are fine: they are meant for conditional
slots. -/
def goodChild : VNode → Bool
  | .vStr s => !(s == "")
  | .vNum n => !(n == 0)
  | .vElem _ attrs children => noDupKeys attrs && goodChildren children
  | _ => true
end

/-- A description that can be re-mounted stably: truthy (so the coordinator
takes the diff path on re-render) and well-behaved as above. -/
def goodRoot (v : VNode) : Bool :=
  !falsy v && goodChild v


/-! ## Auxiliary definitions for the theorems -/

/-- Membership in a `VNodeList`. -/
def memVL (v : VNode) : VNodeList → Prop
  | .nil => False
  | .cons hd tl => v = hd ∨ memVL v tl

/-- The attribute-diff rule as the spec words it (for refinement
comparison with `diffAttrs`): for every key of `new.attrs` whose value
differs from `old.attrs` by strict comparison — a key missing in `old`
counting as different — emit `(key, newValue)`, in `new.attrs` iteration
order; then for every key of `old.attrs` absent from `new.attrs` emit
`(key, absentSentinel)`, in `old.attrs` iteration order. -/
def diffAttrsSpec (oldAttrs newAttrs : List (String × AttrVal)) : List AttrPatch :=
  ((newAttrs.map Prod.fst).filterMap fun k =>
    match lookupA newAttrs k with
    | Option.some v =>
      match lookupA oldAttrs k with
      | Option.none => some { key := k, value := v }
      | Option.some ov =>
        if ov ≠ v then some { key := k, value := v } else none
    | Option.none => none)
    ++ ((oldAttrs.map Prod.fst).filterMap fun k =>
      if hasKey newAttrs k then none else some { key := k, value := AttrVal.undefined })

/-- No value of the attribute map is the `undefined` sentinel. -/
def noUndefVals (attrs : List (String × AttrVal)) : Bool :=
  attrs.all fun kv => decide (kv.2 ≠ AttrVal.undefined)

/-! ## Basic lemmas about the association-list operations -/

theorem lookupA_assocSet_self {κ α : Type} [DecidableEq κ]
    (l : List (κ × α)) (k : κ) (v : α) :
    lookupA (assocSet l k v) k = some v := by
  induction l with
  | nil => simp [assocSet, lookupA]
  | cons kv rest ih =>
    by_cases h : kv.1 = k
    · simp [assocSet, h, lookupA]
    · simp [assocSet, h, lookupA, ih]

theorem assocSet_assocSet_self {κ α : Type} [DecidableEq κ]
    (l : List (κ × α)) (k : κ) (v : α) :
    assocSet (assocSet l k v) k v = assocSet l k v := by
  induction l with
  | nil => simp [assocSet]
  | cons kv rest ih =>
    by_cases h : kv.1 = k
    · simp [assocSet, h]
    · simp [assocSet, h, ih]

theorem lookupA_self_of_noDupKeys {α : Type} (a : List (String × α)) :
    noDupKeys a = true → ∀ kv ∈ a, lookupA a kv.1 = some kv.2 := by
  induction a with
  | nil => intro _ kv h; cases h
  | cons x rest ih =>
    intro hnd kv hkv
    simp only [noDupKeys, Bool.and_eq_true, Bool.not_eq_true'] at hnd
    rcases List.mem_cons.mp hkv with hkv | hkv
    · subst hkv; simp [lookupA]
    · have hx : ¬x.1 = kv.1 := by
        intro hEq
        have : rest.any (fun kv2 => kv2.1 == x.1) = true := by
          refine List.any_eq_true.mpr ⟨kv, hkv, ?_⟩
          simp [hEq]
        simp [this] at hnd
      simp only [lookupA, if_neg (fun h => hx h)]
      exact ih hnd.2 kv hkv

theorem hasKey_of_mem {α : Type} (a : List (String × α)) (kv : String × α)
    (h : kv ∈ a) : hasKey a kv.1 = true := by
  induction a with
  | nil => cases h
  | cons x rest ih =>
    rcases List.mem_cons.mp h with h | h
    · subst h; simp [hasKey, lookupA]
    · by_cases hx : x.1 = kv.1
      · simp [hasKey, lookupA, hx]
      · simpa [hasKey, lookupA, hx] using ih h

/-- Diffing an attribute map against itself yields no attribute records
(JS objects cannot hold duplicate keys, whence the `noDupKeys` premise). -/
theorem diffAttrs_self (a : List (String × AttrVal)) (h : noDupKeys a = true) :
    diffAttrs a a = [] := by
  have h1 : (a.filter fun kv => decide (lookupAttrVal a kv.1 ≠ kv.2)) = [] := by
    apply List.filter_eq_nil_iff.mpr
    intro kv hkv
    have := lookupA_self_of_noDupKeys a h kv hkv
    simp [lookupAttrVal, this]
  have h2 : (a.filter fun kv => !hasKey a kv.1) = [] := by
    apply List.filter_eq_nil_iff.mpr
    intro kv hkv
    simp [hasKey_of_mem a kv hkv]
  simp only [diffAttrs, h1, h2, List.map_nil, List.append_nil]

/-! ## Display-tree helper lemmas -/

theorem DNodeList.setAt_self : ∀ (l : DNodeList) (i : Nat) (x : DNode),
    l.getAt i = some x → l.setAt i x = l
  | .nil, i, x, h => by cases h
  | .cons hd tl, 0, x, h => by
    simp [DNodeList.getAt] at h
    simp [DNodeList.setAt, h]
  | .cons hd tl, i + 1, x, h => by
    simp only [DNodeList.getAt] at h
    simp [DNodeList.setAt, DNodeList.setAt_self tl i x h]

theorem setChildAt_self (p : DNode) (i : Nat) (x : DNode)
    (h : childAt p i = some x) : setChildAt p i x = p := by
  cases p with
  | text s => simp [childAt] at h
  | elem tag cn st pr at_ ev ch =>
    simp only [childAt] at h
    simp [setChildAt, childrenOf, withChildren, DNodeList.setAt_self ch i x h]

theorem VNode.one_le_sizeOf : ∀ (v : VNode), 1 ≤ sizeOf v := by
  intro v; cases v <;> simp_arith

theorem sizeOf_lt_of_memVL : ∀ (cs : VNodeList) (v : VNode),
    memVL v cs → sizeOf v < sizeOf cs
  | .nil, _, h => False.elim h
  | .cons hd tl, v, h => by
    simp only [memVL] at h
    rcases h with h | h
    · subst h; simp only [VNodeList.cons.sizeOf_spec]; omega
    · have := sizeOf_lt_of_memVL tl v h
      simp only [VNodeList.cons.sizeOf_spec]; omega

theorem goodChild_of_memVL : ∀ (cs : VNodeList),
    goodChildren cs = true → ∀ v, memVL v cs → goodChild v = true
  | .nil, _, _, h => False.elim h
  | .cons hd tl, hg, v, h => by
    simp only [goodChildren, Bool.and_eq_true] at hg
    simp only [memVL] at h
    rcases h with h | h
    · subst h; exact hg.1
    · exact goodChild_of_memVL tl hg.2 v h

/-- If patching with the self-diff of every member of `cs` is a no-op, then
the child-patch loop over `diffChildren cs cs` is a no-op. -/
theorem patchChildrenAux_self : ∀ (cs : VNodeList),
    (∀ v, memVL v cs → ∀ (parent : DNode) (idx : Nat),
        patch parent (diff v v) idx = parent) →
    ∀ (el : DNode) (i : Nat), patchChildrenAux el (diffChildren cs cs) i = el
  | .nil, _, _, _ => rfl
  | .cons hd tl, h, el, i => by
    have e1 : diffChildren (.cons hd tl) (.cons hd tl)
        = .cons (diff hd hd) (diffChildren tl tl) := rfl
    rw [e1]
    show patchChildrenAux (patch el (diff hd hd) i) (diffChildren tl tl) (i + 1) = el
    rw [h hd (Or.inl rfl) el i]
    exact patchChildrenAux_self tl (fun v hv p j => h v (Or.inr hv) p j) el (i + 1)

/-- Core no-op lemma, by strong induction on the size of the description:
patching any display parent at any index with the self-diff of a
well-behaved description leaves the parent unchanged. -/
theorem patch_diff_self_aux :
    ∀ (n : Nat) (v : VNode), sizeOf v ≤ n → goodChild v = true →
      ∀ (parent : DNode) (idx : Nat), patch parent (diff v v) idx = parent := by
  intro n
  induction n with
  | zero =>
    intro v hsize _ parent idx
    exact absurd (le_trans (VNode.one_le_sizeOf v) hsize) (by omega)
  | succ n ih =>
    intro v hsize hgood parent idx
    cases v with
    | vNull => rfl
    | vUndefined => rfl
    | vFalse => rfl
    | vStr s =>
      have hs : (s == "") = false := by
        simpa [goodChild] using hgood
      simp [diff, falsy, hs, typeOf, isTextNode, sameScalar, patch]
    | vNum m =>
      have hm : (m == 0) = false := by
        simpa [goodChild] using hgood
      simp [diff, falsy, hm, typeOf, isTextNode, sameScalar, patch]
    | vElem t a c =>
      simp only [VNode.vElem.sizeOf_spec] at hsize
      simp only [goodChild, Bool.and_eq_true] at hgood
      have hdiff : diff (.vElem t a c) (.vElem t a c)
          = .some (.update [] (diffChildren c c)) := by
        simp [diff, falsy, typeOf, isTextNode, diffAttrs_self a hgood.1]
      rw [hdiff]
      have hmem : ∀ v, memVL v c → ∀ (p : DNode) (i : Nat),
          patch p (diff v v) i = p := by
        intro v hv p i
        have hlt := sizeOf_lt_of_memVL c v hv
        exact ih v (by omega) (goodChild_of_memVL c hgood.2 v hv) p i
      cases hchild : childAt parent idx with
      | none => simp [patch, hchild]
      | some element =>
        simp only [patch, hchild]
        have hpa : patchAttrs element [] = element := rfl
        rw [hpa, patchChildrenAux_self c hmem element 0]
        exact setChildAt_self parent idx element hchild

/-- Applying the self-diff of a well-behaved description to any display
parent is a no-op. -/
theorem patch_diff_self (v : VNode) (h : goodChild v = true)
    (parent : DNode) (idx : Nat) : patch parent (diff v v) idx = parent :=
  patch_diff_self_aux (sizeOf v) v le_rfl h parent idx

/-- Re-mounting helper: the state after a mount records the new container
under `c` and caches `D` under `c`. -/
theorem mount_shape (st : MountState) (c : Nat) (cont : DNode) (D : VNode)
    (hc : lookupA st.containers c = some cont) :
    ∃ X, (mount st (some c) D).1.containers = assocSet st.containers c X ∧
      (mount st (some c) D).1.cache = assocSet st.cache c D := by
  refine ⟨(match lookupA st.cache c with
    | Option.some oldVNode =>
      if falsy oldVNode then firstRender cont D
      else patch cont (diff oldVNode D) 0
    | Option.none => firstRender cont D), ?_, ?_⟩ <;>
    simp only [mount, resolveTarget, hc]

/-- Second-mount collapse: mounting the same well-behaved truthy description
twice leaves the state of the first mount unchanged (and reports no error),
and the self-diff of the description is NONE or an UPDATE with an empty
attribute-change list. -/
theorem mount_mount_same (st : MountState) (c : Nat) (cont : DNode) (D : VNode)
    (hc : lookupA st.containers c = some cont) (hD : goodRoot D = true) :
    mount (mount st (some c) D).1 (some c) D = ((mount st (some c) D).1, false) ∧
    (diff D D = .none ∨ ∃ pl, diff D D = .some (.update [] pl)) := by
  have hparts : falsy D = false ∧ goodChild D = true := by
    simpa [goodRoot, Bool.and_eq_true, Bool.not_eq_true'] using hD
  obtain ⟨hfal, hgc⟩ := hparts
  constructor
  · obtain ⟨X, hcont, hcache⟩ := mount_shape st c cont D hc
    set st1 := (mount st (some c) D).1 with hst1
    have hl1 : lookupA st1.containers c = some X := by
      rw [hcont]; exact lookupA_assocSet_self st.containers c X
    have hl2 : lookupA st1.cache c = some D := by
      rw [hcache]; exact lookupA_assocSet_self st.cache c D
    simp only [mount, resolveTarget, hl1, hl2, hfal]
    simp only [Bool.false_eq_true, if_false, patch_diff_self D hgc X 0]
    rw [hcont, hcache, assocSet_assocSet_self, assocSet_assocSet_self,
      ← hcont, ← hcache]
  · cases D with
    | vNull => simp [falsy] at hfal
    | vUndefined => simp [falsy] at hfal
    | vFalse => simp [falsy] at hfal
    | vStr s =>
      left
      have hs : (s == "") = false := by simpa [falsy] using hfal
      simp [diff, falsy, hs, typeOf, isTextNode, sameScalar]
    | vNum m =>
      left
      have hm : (m == 0) = false := by simpa [falsy] using hfal
      simp [diff, falsy, hm, typeOf, isTextNode, sameScalar]
    | vElem t a c =>
      right
      refine ⟨diffChildren c c, ?_⟩
      simp only [goodChild, Bool.and_eq_true] at hgc
      simp [diff, falsy, typeOf, isTextNode, diffAttrs_self a hgc.1]

/-! ## Index alignment of `diffChildren` -/

theorem length_createPatches : ∀ (l : VNodeList),
    (createPatches l).length = l.length
  | .nil => rfl
  | .cons n ns => by
    simp [createPatches, PatchList.length, VNodeList.length, length_createPatches ns]

theorem getD_createPatches : ∀ (l : VNodeList) (i : Nat), i < l.length →
    (createPatches l).getD i = .some (.create (l.getD i .vUndefined))
  | .nil, i, h => by simp [VNodeList.length] at h
  | .cons n ns, 0, _ => rfl
  | .cons n ns, i + 1, h => by
    have h' : i < ns.length := by
      simp only [VNodeList.length] at h; omega
    simpa [createPatches, PatchList.getD, VNodeList.getD] using
      getD_createPatches ns i h'

theorem length_diffChildren : ∀ (c1 c2 : VNodeList),
    (diffChildren c1 c2).length = max c1.length c2.length
  | .nil, ns => by
    simp [diffChildren, length_createPatches, VNodeList.length]
  | .cons o os, .nil => by
    have ih := length_diffChildren os .nil
    simp only [diffChildren, PatchList.length, VNodeList.length, ih]
    omega
  | .cons o os, .cons n ns => by
    have ih := length_diffChildren os ns
    simp only [diffChildren, PatchList.length, VNodeList.length, ih]
    omega

theorem getD_diffChildren : ∀ (c1 c2 : VNodeList) (i : Nat),
    i < max c1.length c2.length →
    (diffChildren c1 c2).getD i = diff (c1.getD i .vUndefined) (c2.getD i .vUndefined)
  | .nil, ns, i, h => by
    have hi : i < ns.length := by
      simp only [VNodeList.length] at h; omega
    have e2 : diff (VNodeList.getD .nil i .vUndefined) (ns.getD i .vUndefined)
        = .some (.create (ns.getD i .vUndefined)) := by
      simp [VNodeList.getD, diff, falsy]
    simp [diffChildren, getD_createPatches ns i hi, e2]
  | .cons o os, .nil, 0, _ => rfl
  | .cons o os, .nil, i + 1, h => by
    have h' : i < max os.length (VNodeList.length .nil) := by
      simp only [VNodeList.length] at h ⊢; omega
    simpa [diffChildren, PatchList.getD, VNodeList.getD] using
      getD_diffChildren os .nil i h'
  | .cons o os, .cons n ns, 0, _ => rfl
  | .cons o os, .cons n ns, i + 1, h => by
    have h' : i < max os.length ns.length := by
      simp only [VNodeList.length] at h; omega
    simpa [diffChildren, PatchList.getD, VNodeList.getD] using
      getD_diffChildren os ns i h'

/-! ## Flattening lemmas for the tree builder -/

theorem leavesForest_append : ∀ (l1 l2 : List VNode),
    leavesForest (l1 ++ l2) = (leavesForest l1).append (leavesForest l2)
  | [], l2 => rfl
  | v :: rest, l2 => by
    simp [leavesForest, ChildForest.append, leavesForest_append rest l2]

theorem allLeaves_eq_leaves : ∀ (cs : ChildForest), allLeaves cs = true →
    cs = leavesForest (flattenForest cs)
  | .nil, _ => rfl
  | .cons (.leaf v) tl, h => by
    simp only [allLeaves] at h
    simp only [flattenForest, leavesForest, ChildForest.cons.injEq, true_and]
    exact allLeaves_eq_leaves tl h
  | .cons (.arr items) tl, h => by simp [allLeaves] at h

theorem flatOnce_shallow : ∀ (cs : ChildForest), shallowForest cs = true →
    flatOnce cs = leavesForest (flattenForest cs)
  | .nil, _ => rfl
  | .cons (.leaf v) tl, h => by
    simp only [shallowForest] at h
    simp only [flatOnce, flattenForest, leavesForest, ChildForest.cons.injEq, true_and]
    exact flatOnce_shallow tl h
  | .cons (.arr items) tl, h => by
    simp only [shallowForest, Bool.and_eq_true] at h
    calc flatOnce (.cons (.arr items) tl) = items.append (flatOnce tl) := rfl
      _ = items.append (leavesForest (flattenForest tl)) := by
        rw [flatOnce_shallow tl h.2]
      _ = (leavesForest (flattenForest items)).append
            (leavesForest (flattenForest tl)) := by
        rw [← allLeaves_eq_leaves items h.1]
      _ = leavesForest (flattenForest items ++ flattenForest tl) :=
        (leavesForest_append _ _).symm
      _ = leavesForest (flattenForest (.cons (.arr items) tl)) := rfl

theorem allLeaves_leavesForest : ∀ (l : List VNode),
    allLeaves (leavesForest l) = true
  | [] => rfl
  | v :: rest => by simp [leavesForest, allLeaves, allLeaves_leavesForest rest]

/-! ## Event accumulation and attribute-diff refinement helpers -/

theorem lookupA_append_of_none {κ α : Type} [DecidableEq κ] :
    ∀ (l : List (κ × α)) (k : κ) (v : α), lookupA l k = none →
    lookupA (l ++ [(k, v)]) k = some v
  | [], k, v, _ => by simp [lookupA]
  | kv :: rest, k, v, h => by
    by_cases hk : kv.1 = k
    · simp [lookupA, hk] at h
    · simp only [List.cons_append, lookupA, if_neg hk] at h ⊢
      exact lookupA_append_of_none rest k v h

theorem diffAttrs_changed_eq (sub : List (String × AttrVal)) :
    ∀ (newFull oldAttrs : List (String × AttrVal)),
    (∀ kv ∈ sub, lookupA newFull kv.1 = some kv.2) →
    (∀ kv ∈ sub, kv.2 ≠ AttrVal.undefined) →
    ((sub.filter fun kv => decide (lookupAttrVal oldAttrs kv.1 ≠ kv.2)).map
        fun kv => ({ key := kv.1, value := kv.2 } : AttrPatch)) =
      (sub.map Prod.fst).filterMap (fun k =>
        match lookupA newFull k with
        | Option.some v =>
          match lookupA oldAttrs k with
          | Option.none => some { key := k, value := v }
          | Option.some ov =>
            if ov ≠ v then some { key := k, value := v } else none
        | Option.none => none) := by
  induction sub with
  | nil => intro _ _ _ _; rfl
  | cons kv rest ih =>
    intro newFull oldAttrs hlk hnu
    have hkv := hlk kv (List.mem_cons_self kv rest)
    have hkvne := hnu kv (List.mem_cons_self kv rest)
    have hrest := ih newFull oldAttrs
      (fun x hx => hlk x (List.mem_cons_of_mem kv hx))
      (fun x hx => hnu x (List.mem_cons_of_mem kv hx))
    simp only [ne_eq, decide_not, List.filterMap_map] at hrest
    simp only [List.map_cons, List.filterMap_cons, List.filter_cons, hkv]
    cases ho : lookupA oldAttrs kv.1 with
    | none =>
      have hval : lookupAttrVal oldAttrs kv.1 = .undefined := by
        simp [lookupAttrVal, ho]
      have hcond : (lookupAttrVal oldAttrs kv.1 ≠ kv.2) := by
        rw [hval]; exact fun hh => hkvne hh.symm
      simp [hcond, hrest]
    | some ov =>
      have hval : lookupAttrVal oldAttrs kv.1 = ov := by
        simp [lookupAttrVal, ho]
      by_cases hov : ov = kv.2
      · have hcond : ¬(lookupAttrVal oldAttrs kv.1 ≠ kv.2) := by
          rw [hval, hov]; exact fun hh => hh rfl
        simp [hcond, hov, hrest]
      · have hcond : (lookupAttrVal oldAttrs kv.1 ≠ kv.2) := by
          rw [hval]; exact hov
        simp [hcond, hov, hrest]

theorem diffAttrs_removed_eq (oldAttrs : List (String × AttrVal))
    (newAttrs : List (String × AttrVal)) :
    ((oldAttrs.filter fun kv => !hasKey newAttrs kv.1).map
        fun kv => ({ key := kv.1, value := AttrVal.undefined } : AttrPatch)) =
      (oldAttrs.map Prod.fst).filterMap (fun k =>
        if hasKey newAttrs k then none
        else some { key := k, value := AttrVal.undefined }) := by
  induction oldAttrs with
  | nil => rfl
  | cons kv rest ih =>
    by_cases hk : hasKey newAttrs kv.1 = true
    · simp [List.filter_cons, List.filterMap_cons, hk, ih]
    · simp only [Bool.not_eq_true] at hk
      simp [List.filter_cons, List.filterMap_cons, hk, ih]

/-! ## Claim theorems -/

/-- C1 (counterexample): `diff(Text(0), Element("div"))` has operands of
different JS types (`number` vs `object`) and `Text(0)` is a present Text
node, not an Absent value (`null`/`undefined`/`false`) — yet the source
returns CREATE, not REPLACE, because its first check is JS truthiness of the
old node and the scalar `0` is falsy. -/
theorem c1_counterexample :
    typeOf (VNode.vNum 0) ≠ typeOf (VNode.vElem "div" [] .nil) ∧
    diff (VNode.vNum 0) (VNode.vElem "div" [] .nil) =
      .some (.create (VNode.vElem "div" [] .nil)) :=
  ⟨by decide, rfl⟩

/-- C1 (amended): the decision rules of `diff`, with "absent" amended to JS
falsiness (`null`/`undefined`/`false` and also the scalars `0` and `""`) and
checked in the source's order — falsy old ⇒ CREATE first, then falsy new ⇒
REMOVE, then JS-type mismatch ⇒ REPLACE, then tag mismatch ⇒ REPLACE; and
UPDATE is produced only when both nodes are Elements with the same tag. -/
theorem diff_decision_rules (o n : VNode) :
    (falsy o = true → diff o n = .some (.create n)) ∧
    (falsy o = false → falsy n = true → diff o n = .some .remove) ∧
    (falsy o = false → falsy n = false → typeOf o ≠ typeOf n →
      diff o n = .some (.replace n)) ∧
    (∀ t1 a1 c1 t2 a2 c2, o = .vElem t1 a1 c1 → n = .vElem t2 a2 c2 →
      t1 ≠ t2 → diff o n = .some (.replace n)) ∧
    (∀ ap cp, diff o n = .some (.update ap cp) →
      ∃ t a1 c1 a2 c2, o = .vElem t a1 c1 ∧ n = .vElem t a2 c2) := by
  refine ⟨?_, ?_, ?_, ?_, ?_⟩
  · intro h; unfold diff; simp [h]
  · intro h1 h2; unfold diff; simp [h1, h2]
  · intro h1 h2 h3; unfold diff; simp [h1, h2, h3]
  · rintro t1 a1 c1 t2 a2 c2 rfl rfl hne
    simp [diff, falsy, typeOf, isTextNode, hne]
  · intro ap cp h
    cases o with
    | vElem t1 a1 c1 =>
      cases n with
      | vElem t2 a2 c2 =>
        by_cases ht : t1 = t2
        · subst ht
          exact ⟨t1, a1, c1, a2, c2, rfl, rfl⟩
        · unfold diff at h
          simp [falsy, typeOf, isTextNode, ht] at h
      | vNull =>
        unfold diff at h
        split_ifs at h <;> simp_all [falsy, typeOf, isTextNode]
      | vUndefined =>
        unfold diff at h
        split_ifs at h <;> simp_all [falsy, typeOf, isTextNode]
      | vFalse =>
        unfold diff at h
        split_ifs at h <;> simp_all [falsy, typeOf, isTextNode]
      | vStr s =>
        unfold diff at h
        split_ifs at h <;> simp_all [falsy, typeOf, isTextNode]
      | vNum m =>
        unfold diff at h
        split_ifs at h <;> simp_all [falsy, typeOf, isTextNode]
    | vNull =>
      unfold diff at h
      split_ifs at h <;> simp_all [falsy, typeOf, isTextNode]
    | vUndefined =>
      unfold diff at h
      split_ifs at h <;> simp_all [falsy, typeOf, isTextNode]
    | vFalse =>
      unfold diff at h
      split_ifs at h <;> simp_all [falsy, typeOf, isTextNode]
    | vStr s =>
      unfold diff at h
      split_ifs at h <;> simp_all [falsy, typeOf, isTextNode, sameScalar]
    | vNum m =>
      unfold diff at h
      split_ifs at h <;> simp_all [falsy, typeOf, isTextNode, sameScalar]

/-- Witness for the REPLACE-on-type-mismatch rule of `diff_decision_rules`. -/
theorem diff_decision_rules_witness :
    diff (VNode.vStr "a") (VNode.vElem "div" [] .nil) =
      .some (.replace (VNode.vElem "div" [] .nil)) :=
  (diff_decision_rules (VNode.vStr "a") (VNode.vElem "div" [] .nil)).2.2.1
    (by decide) (by decide) (by decide)

/-- C2 (counterexample): re-mounting the same description
`Element("div", {}, [Text("")])` into the same container duplicates the
empty text node: the self-diff of the falsy scalar child `""` is
`CREATE("")` (not NONE), and applying it appends a second text node, so the
display tree after the second mount differs from the tree after the first. -/
theorem c2_counterexample :
    lookupA ((mount
        { containers := [(0, DNode.elem "body" "" [] [] [] [] .nil)],
          cache := [] }
        (some 0) (.vElem "div" [] (.cons (.vStr "") .nil))).1.containers) 0 =
      some (.elem "body" "" [] [] [] []
        (.cons (.elem "div" "" [] [] [] [] (.cons (.text "") .nil)) .nil)) ∧
    lookupA ((mount (mount
        { containers := [(0, DNode.elem "body" "" [] [] [] [] .nil)],
          cache := [] }
        (some 0) (.vElem "div" [] (.cons (.vStr "") .nil))).1
        (some 0) (.vElem "div" [] (.cons (.vStr "") .nil))).1.containers) 0 =
      some (.elem "body" "" [] [] [] []
        (.cons (.elem "div" "" [] [] [] []
          (.cons (.text "") (.cons (.text "") .nil))) .nil)) :=
  ⟨rfl, rfl⟩

/-- Witness for `mount_mount_same` at a concrete container and description. -/
theorem mount_mount_same_witness :
    mount (mount
        { containers := [(0, DNode.elem "body" "" [] [] [] [] .nil)],
          cache := [] }
        (some 0) (.vElem "div" [("id", .str "x")] (.cons (.vStr "hi") .nil))).1
      (some 0) (.vElem "div" [("id", .str "x")] (.cons (.vStr "hi") .nil)) =
    ((mount
        { containers := [(0, DNode.elem "body" "" [] [] [] [] .nil)],
          cache := [] }
        (some 0) (.vElem "div" [("id", .str "x")] (.cons (.vStr "hi") .nil))).1,
      false) :=
  (mount_mount_same
    { containers := [(0, DNode.elem "body" "" [] [] [] [] .nil)],
      cache := [] }
    0 (DNode.elem "body" "" [] [] [] [] .nil)
    (.vElem "div" [("id", .str "x")] (.cons (.vStr "hi") .nil)) rfl
    (by decide)).1

/-- C3 (counterexample): applying an UPDATE patch at index 0 of a parent
with no display children completes normally and leaves the parent
unchanged — the source's `if (element)` guard silently skips the patch
instead of failing. -/
theorem c3_counterexample :
    patch (DNode.elem "div" "" [] [] [] [] .nil)
      (.some (.update [{ key := "id", value := .str "x" }] .nil)) 0 =
      DNode.elem "div" "" [] [] [] [] .nil :=
  rfl

/-- C3 (amended): an UPDATE patch addressed at an index with no existing
display child is silently ignored: the parent is returned unchanged and no
failure is raised. -/
theorem patch_update_missing_child (parent : DNode) (ap : List AttrPatch)
    (cp : PatchList) (idx : Nat) (h : childAt parent idx = none) :
    patch parent (.some (.update ap cp)) idx = parent := by
  simp [patch, h]

/-- Witness for `patch_update_missing_child` at a concrete parent. -/
theorem patch_update_missing_child_witness :
    patch (DNode.elem "p" "" [] [] [] [] (.cons (.text "t") .nil))
      (.some (.update [] .nil)) 5 =
      DNode.elem "p" "" [] [] [] [] (.cons (.text "t") .nil) :=
  patch_update_missing_child _ [] .nil 5 rfl

/-- C4 (counterexample): `createElement` uses `children.flat()`, which
flattens exactly one level; a child sequence nested two levels deep is
stored still nested, so the stored children sequence is not fully
flattened. -/
theorem c4_counterexample :
    allLeaves (createElement "div" []
      (.cons (.arr (.cons (.arr (.cons (.leaf (.vStr "a")) .nil)) .nil))
        .nil)).children = false :=
  rfl

/-- C4 (amended): `createElement` flattens the children sequence by exactly
one level.  For inputs whose nesting is at most one level of grouping (each
entry a description or a sequence of descriptions) the stored children are
the fully flattened ordered sequence, preserving left-to-right order;
deeper nesting survives one level less but is not fully flattened. -/
theorem createElement_flattens_one_level (tag : String)
    (attrs : List (String × AttrVal)) (children : ChildForest)
    (h : shallowForest children = true) :
    (createElement tag attrs children).children
      = leavesForest (flattenForest children) ∧
    allLeaves (createElement tag attrs children).children = true := by
  have e : (createElement tag attrs children).children = flatOnce children := rfl
  rw [e, flatOnce_shallow children h]
  exact ⟨rfl, allLeaves_leavesForest _⟩

/-- Witness for `createElement_flattens_one_level` on a concrete grouped
child list. -/
theorem createElement_flattens_one_level_witness :
    (createElement "ul" []
      (.cons (.leaf (.vStr "a"))
        (.cons (.arr (.cons (.leaf (.vStr "b"))
          (.cons (.leaf (.vStr "c")) .nil))) .nil))).children
      = leavesForest (flattenForest
          (.cons (.leaf (.vStr "a"))
            (.cons (.arr (.cons (.leaf (.vStr "b"))
              (.cons (.leaf (.vStr "c")) .nil))) .nil))) :=
  (createElement_flattens_one_level "ul" []
    (.cons (.leaf (.vStr "a"))
      (.cons (.arr (.cons (.leaf (.vStr "b"))
        (.cons (.leaf (.vStr "c")) .nil))) .nil)) rfl).1

/-- C5: the attribute-change list of the source's `diffAttrs` coincides with
the spec's rule (`diffAttrsSpec`) on every pair of real attribute maps —
keys of the new map unique, no value of the new map equal to the
`undefined` sentinel — and on the spec's concrete example the list is
exactly one removal record for `"id"`. -/
theorem diffAttrs_matches_spec :
    (∀ (oldAttrs newAttrs : List (String × AttrVal)),
      noDupKeys newAttrs = true → noUndefVals newAttrs = true →
      diffAttrs oldAttrs newAttrs = diffAttrsSpec oldAttrs newAttrs) ∧
    diffAttrs [("id", .str "x"), ("class", .str "a")] [("class", .str "a")] =
      [{ key := "id", value := .undefined }] := by
  constructor
  · intro oldAttrs newAttrs hnd hnu
    unfold diffAttrs diffAttrsSpec
    congr 1
    · exact diffAttrs_changed_eq newAttrs newAttrs oldAttrs
        (lookupA_self_of_noDupKeys newAttrs hnd)
        (fun kv hkv => by
          have := List.all_eq_true.mp hnu kv hkv
          simpa using this)
    · exact diffAttrs_removed_eq oldAttrs newAttrs
  · rfl

/-- Witness for `diffAttrs_matches_spec` on concrete maps exercising a
changed key, an added key and a removed key. -/
theorem diffAttrs_matches_spec_witness :
    diffAttrs [("a", .str "1"), ("c", .bool true)]
        [("a", .str "2"), ("b", .num 3)] =
      diffAttrsSpec [("a", .str "1"), ("c", .bool true)]
        [("a", .str "2"), ("b", .num 3)] :=
  diffAttrs_matches_spec.1 _ _ (by decide) (by decide)

/-- C6: for same-tag Elements the UPDATE patch carries `diffChildren`, whose
length is `max(len(old.children), len(new.children))` and whose `i`-th entry
is the recursive diff of the `i`-th children, an out-of-range index reading
as `undefined`; on the spec's examples the child patches are
`[NONE, CREATE(Text("b"))]` and `[NONE, REMOVE]`. -/
theorem diff_children_index_aligned (t : String)
    (a1 a2 : List (String × AttrVal)) (c1 c2 : VNodeList) :
    diff (.vElem t a1 c1) (.vElem t a2 c2) =
      .some (.update (diffAttrs a1 a2) (diffChildren c1 c2)) ∧
    (diffChildren c1 c2).length = max c1.length c2.length ∧
    (∀ i, i < max c1.length c2.length →
      (diffChildren c1 c2).getD i
        = diff (c1.getD i .vUndefined) (c2.getD i .vUndefined)) ∧
    diff (.vElem "ul" [] (.cons (.vStr "a") .nil))
        (.vElem "ul" [] (.cons (.vStr "a") (.cons (.vStr "b") .nil))) =
      .some (.update []
        (.cons .none (.cons (.some (.create (.vStr "b"))) .nil))) ∧
    diff (.vElem "ul" [] (.cons (.vStr "a") (.cons (.vStr "b") .nil)))
        (.vElem "ul" [] (.cons (.vStr "a") .nil)) =
      .some (.update [] (.cons .none (.cons (.some .remove) .nil))) := by
  refine ⟨?_, length_diffChildren c1 c2,
    fun i hi => getD_diffChildren c1 c2 i hi, rfl, rfl⟩
  simp [diff, falsy, typeOf, isTextNode]

/-- Witness for the index-alignment part of `diff_children_index_aligned`
at index 1 of the spec's growth example. -/
theorem diff_children_index_aligned_witness :
    (diffChildren (.cons (.vStr "a") .nil)
        (.cons (.vStr "a") (.cons (.vStr "b") .nil))).getD 1
      = diff (VNodeList.getD (.cons (.vStr "a") .nil) 1 .vUndefined)
          (VNodeList.getD (.cons (.vStr "a") (.cons (.vStr "b") .nil)) 1
            .vUndefined) :=
  (diff_children_index_aligned "ul" [] []
    (.cons (.vStr "a") .nil)
    (.cons (.vStr "a") (.cons (.vStr "b") .nil))).2.2.1 1 (by decide)

/-- C7: divergence of the two attribute-binding paths on `selected`.  The
materialize path (`createDOMElement`, dom.js:47-48) assigns `selected` as a
live property, but the patch path (`patchAttrs`, dom.js:198) omits
`selected` from its property list and falls through to `setAttribute`. -/
theorem c7_selected_divergence :
    applyAttrCreate (DNode.elem "option" "" [] [] [] [] .nil)
        "selected" (.bool true) =
      DNode.elem "option" "" [] [("selected", .bool true)] [] [] .nil ∧
    applyAttrPatch (DNode.elem "option" "" [] [] [] [] .nil)
        "selected" (.bool true) =
      DNode.elem "option" "" [] [] [("selected", "true")] [] .nil :=
  ⟨rfl, rfl⟩

/-- C8: when the mount target does not resolve to a container, `mount`
reports the failure (the `console.error` path, reflected in the `true`
flag), performs no display-tree or cache mutation, and returns normally. -/
theorem mount_unresolved_skips (st : MountState) (target : Option Nat)
    (D : VNode) (h : resolveTarget st target = none) :
    mount st target D = (st, true) := by
  simp [mount, h]

/-- Witness for `mount_unresolved_skips` on a concrete unresolvable target. -/
theorem mount_unresolved_skips_witness :
    mount { containers := [], cache := [] } none (.vStr "x") =
      ({ containers := [], cache := [] }, true) :=
  mount_unresolved_skips _ none _ rfl

/-- C9: `bindEvent` accumulates: binding another handler for the same
(element, event) keeps all previously bound handlers, and a single dispatch
invokes every bound handler in registration order — so after two binds the
dispatch order is the old handlers followed by the two new ones in order. -/
theorem bindEvent_accumulates (R : EventMap) (e : String) (h1 h2 : Nat) :
    dispatch (bindEvent R e h1) e = dispatch R e ++ [h1] ∧
    dispatch (bindEvent (bindEvent R e h1) e h2) e
      = dispatch R e ++ [h1, h2] := by
  have key : ∀ (S : EventMap) (h : Nat),
      dispatch (bindEvent S e h) e = dispatch S e ++ [h] := by
    intro S h
    unfold bindEvent dispatch
    cases hl : lookupA S e with
    | none => rw [lookupA_append_of_none S e [h] hl]; rfl
    | some hs => rw [lookupA_assocSet_self S e (hs ++ [h])]; rfl
  refine ⟨key R h1, ?_⟩
  rw [key (bindEvent R e h1) h2, key R h1, List.append_assoc]
  rfl

/-- C10: a failed resolution leaves the mount cache untouched, and a mount
into a container with no cache entry takes the first-render path: the
container is replaced by the full materialization of the description
(cleared, then `createDOMElement` output appended), not by a diff-and-patch
of existing content. -/
theorem mount_unresolved_cache_intact (st : MountState) (target : Option Nat)
    (D : VNode) (h : resolveTarget st target = none) :
    (mount st target D).1.cache = st.cache ∧
    (∀ (c : Nat) (cont : DNode) (E : VNode),
      lookupA st.containers c = some cont → lookupA st.cache c = none →
      (mount st (some c) E).1.containers
        = assocSet st.containers c (firstRender cont E)) := by
  constructor
  · simp [mount, h]
  · intro c cont E hc hcache
    simp [mount, resolveTarget, hc, hcache]

/-- Witness for `mount_unresolved_cache_intact`: a failed mount leaves the
cache empty, and the following successful mount materializes in full. -/
theorem mount_unresolved_cache_intact_witness :
    (mount
      { containers := [(0, DNode.elem "body" "" [] [] [] [] .nil)],
        cache := [] } none (.vStr "x")).1.cache = [] ∧
    (mount
      { containers := [(0, DNode.elem "body" "" [] [] [] [] .nil)],
        cache := [] } (some 0) (.vStr "y")).1.containers
      = assocSet [(0, DNode.elem "body" "" [] [] [] [] .nil)] 0
          (firstRender (DNode.elem "body" "" [] [] [] [] .nil) (.vStr "y")) :=
  ⟨(mount_unresolved_cache_intact _ none (.vStr "x") rfl).1,
    (mount_unresolved_cache_intact _ none (.vStr "x") rfl).2 0
      (DNode.elem "body" "" [] [] [] [] .nil) (.vStr "y") rfl rfl⟩
